import Mathlib

/-!
Verification of the payment reconciliation engine of the Banco Azul
repository.  The repository ships its design documents and test plans;
the reconciliation engine itself (payment creation, webhook application,
status query) is described by `spec.md` and quoted in fragments inside
`SECURITY_REVIEW.md`.  Two models are developed here:

* `PaymentCore`: the engine as the specification describes it
  (creation service, reconciler with a seen-signature set and a
  watermark rule, idempotency index with expiry).
* `ApiModel`: the webhook processor and idempotency cache exactly as
  the code fragments quoted in `SECURITY_REVIEW.md` behave
  (status-equality duplicate check, unexpiring in-memory cache).
-/

/-- Decidable equality of `Except` results, used to evaluate outcomes of
the fallible operations on concrete inputs. -/
def exceptDecEq {ε α : Type} [DecidableEq ε] [DecidableEq α] :
    DecidableEq (Except ε α) := fun x y =>
  match x, y with
  | .error a, .error b =>
    if h : a = b then .isTrue (by rw [h]) else .isFalse (fun hc => h (by injection hc))
  | .ok a, .ok b =>
    if h : a = b then .isTrue (by rw [h]) else .isFalse (fun hc => h (by injection hc))
  | .error _, .ok _ => .isFalse (fun hc => by injection hc)
  | .ok _, .error _ => .isFalse (fun hc => by injection hc)

instance {ε α : Type} [DecidableEq ε] [DecidableEq α] : DecidableEq (Except ε α) :=
  exceptDecEq

namespace PaymentCore

/-- Payment status values.  Modelled from the spec: `status` ranges over
pending, approved, declined, expired; pending is initial. -/
inductive Status where
  | pending
  | approved
  | declined
  | expired
deriving DecidableEq, Repr

/-- Modelled from the spec: terminal-by-default statuses are all but pending. -/
def Status.isTerminal : Status → Bool
  | .pending => false
  | _ => true

/-- Modelled from the spec: a NotificationEvent carries `payment_id`,
`status`, `event_timestamp` (event-generation time) and an opaque,
currently unverified `auth_token`. -/
structure NotificationEvent where
  payment_id : String
  status : Status
  event_timestamp : Nat
  auth_token : String
deriving DecidableEq, Repr

/-- Modelled from the spec: the Payment record of the data model, §3.
`last_event_at` is the monotonic watermark, `applied_event_count` counts
notifications that caused a state change, `seen_event_signatures` holds
the `(status, event_timestamp)` pairs of applied notifications. -/
structure Payment where
  id : String
  status : Status
  amount : String
  currency : String
  creation_key : String
  created_at : Nat
  last_event_at : Nat
  applied_event_count : Nat
  seen_event_signatures : List (Status × Nat)
deriving DecidableEq, Repr

/-- Modelled from the spec: the ReconcileResult record,
`{applied, outOfOrder, duplicate}`. -/
structure ReconcileResult where
  applied : Bool
  outOfOrder : Bool
  duplicate : Bool
deriving DecidableEq, Repr

/-- Modelled from the spec, §4.2 Reconciler (the per-payment part of
`Apply`, after the store lookup): first the duplicate-suppression check
on the seen-signature set, then the ordering (watermark) rule, else the
atomic application that sets `status`, advances `last_event_at`,
increments `applied_event_count` and records the signature.  The
specification asks for a bounded recently-seen set but fixes no capacity
or eviction policy, so the set is modelled without eviction. -/
def applyToPayment (p : Payment) (e : NotificationEvent) : Payment × ReconcileResult :=
  if (e.status, e.event_timestamp) ∈ p.seen_event_signatures then
    (p, ⟨false, false, true⟩)
  else if e.event_timestamp ≤ p.last_event_at then
    (p, ⟨false, true, false⟩)
  else
    ({ p with
        status := e.status
        last_event_at := e.event_timestamp
        applied_event_count := p.applied_event_count + 1
        seen_event_signatures := (e.status, e.event_timestamp) :: p.seen_event_signatures },
      ⟨true, false, false⟩)

/-- Sequential delivery of a list of notifications to one payment,
keeping only the resulting state. -/
def applyList (p : Payment) (evs : List NotificationEvent) : Payment :=
  evs.foldl (fun q e => (applyToPayment q e).1) p

/-- State invariant: every recorded signature carries a timestamp at or
below the current watermark.  It holds for freshly created payments
(empty set) and is preserved by `applyToPayment`. -/
def SeenInv (p : Payment) : Prop :=
  ∀ sig ∈ p.seen_event_signatures, sig.2 ≤ p.last_event_at

instance (p : Payment) : Decidable (SeenInv p) :=
  inferInstanceAs (Decidable (∀ sig ∈ p.seen_event_signatures, sig.2 ≤ p.last_event_at))

/-- The delivered notifications have pairwise-distinct event timestamps. -/
def DistinctTs (evs : List NotificationEvent) : Prop :=
  evs.Pairwise (fun a b => a.event_timestamp ≠ b.event_timestamp)

instance (evs : List NotificationEvent) : Decidable (DistinctTs evs) :=
  inferInstanceAs (Decidable (evs.Pairwise _))

/-- Customer fields of a creation request. -/
structure Customer where
  email : String
  name : String
  document : String
deriving DecidableEq, Repr

/-- Modelled from the spec, §6: the creation-request fields.  `customer`
and `amount` are optional at the wire level; validation rejects their
absence. -/
structure CreateRequest where
  amount : Option String
  currency : String
  payment_method : String
  bank : String
  customer : Option Customer
  redirect_url : String
deriving DecidableEq, Repr

/-- Error surface for callers, §7. -/
inductive CoreError where
  | NotFound
  | ValidationError
deriving DecidableEq, Repr

/-- Modelled from the spec, §4.1: the fixed allowed set of payment
methods (the async methods PSE, PIX, OXXO named by the repository). -/
def allowedMethods : List String := ["PSE", "PIX", "OXXO"]

/-- Modelled from the spec, §4.1 input constraints: `payment_method`
must be in the allowed set and customer/amount must be present. -/
def validRequest (r : CreateRequest) : Bool :=
  allowedMethods.contains r.payment_method && r.customer.isSome && r.amount.isSome

/-- Modelled from the spec, §3: an IdempotencyEntry maps a creation key
to a payment id, with an expiry instant. -/
structure IdempotencyEntry where
  payment_id : String
  expires_at : Nat
deriving DecidableEq, Repr

/-- Association-list lookup keyed on string equality, newest entry first. -/
def lookupKey {α : Type} (k : String) : List (String × α) → Option α
  | [] => none
  | (k', v) :: rest => if k' = k then some v else lookupKey k rest

/-- The two shared mutable resources of the core, §5: the Payment Store
and the Idempotency Index, with the newest entry first in each list. -/
structure Store where
  payments : List (String × Payment)
  index : List (String × IdempotencyEntry)
deriving DecidableEq, Repr

def emptyStore : Store := ⟨[], []⟩

/-- Modelled from the spec, §4.1: the freshly created Payment record,
status pending, `created_at = last_event_at = now`. -/
def newPayment (id : String) (req : CreateRequest) (key : String) (now : Nat) : Payment :=
  { id := id
    status := .pending
    amount := req.amount.getD ""
    currency := req.currency
    creation_key := key
    created_at := now
    last_event_at := now
    applied_event_count := 0
    seen_event_signatures := [] }

/-- The create-new branch of the Creation Service: allocate the pending
Payment and insert the `(creationKey → new id)` index entry expiring at
`now + ttl`. -/
def createNewBranch (st : Store) (req : CreateRequest) (key newId : String) (now ttl : Nat) :
    Store × Except CoreError (Payment × Bool) :=
  (⟨(newId, newPayment newId req key now) :: st.payments,
    (key, ⟨newId, now + ttl⟩) :: st.index⟩,
    .ok (newPayment newId req key now, true))

/-- Modelled from the spec, §4.1 Creation Service, `Create(request,
creationKey) → (Payment, isNew)`.  `newId` stands for the externally
generated opaque id, `now` for the call time and `ttl` for the index
entry's time to live (the spec fixes no value).  A present and unexpired
entry for the key returns the existing Payment with `isNew = false` and
no mutation; an absent entry (or an expired or dangling one) takes the
create-new branch.  Invalid input fails with `ValidationError` and no
record is created. -/
def Create (st : Store) (req : CreateRequest) (key newId : String) (now ttl : Nat) :
    Store × Except CoreError (Payment × Bool) :=
  if validRequest req then
    match lookupKey key st.index with
    | some entry =>
      if now < entry.expires_at then
        match lookupKey entry.payment_id st.payments with
        | some p => (st, .ok (p, false))
        | none => createNewBranch st req key newId now ttl
      else createNewBranch st req key newId now ttl
    | none => createNewBranch st req key newId now ttl
  else (st, .error .ValidationError)

/-- Modelled from the spec, §4.2: the store-level `Apply`.  It fails with
`NotFound` when `event.payment_id` has no Payment (creating no
placeholder and touching nothing), else reconciles the payment and
writes it back; the idempotency index is never touched. -/
def Apply (st : Store) (e : NotificationEvent) : Store × Except CoreError ReconcileResult :=
  match lookupKey e.payment_id st.payments with
  | none => (st, .error .NotFound)
  | some p =>
    (⟨(e.payment_id, (applyToPayment p e).1) :: st.payments, st.index⟩,
      .ok (applyToPayment p e).2)

end PaymentCore

namespace ApiModel

open PaymentCore (Status)

/-- The payment record as the backend code quoted in `SECURITY_REVIEW.md`
uses it: a status, the `updated_at` watermark read by the ordering check
(lines 31, 101) and the `webhook_count` counter read by the duplicate
check (line 63) and incremented on processing (line 290). -/
structure PyPayment where
  id : String
  status : Status
  updated_at : Nat
  webhook_count : Nat
deriving DecidableEq, Repr

/-- Webhook payload fields used by the quoted processing code. -/
structure PyWebhook where
  payment_id : String
  status : Status
  timestamp : Nat
deriving DecidableEq, Repr

/-- The three response shapes of the quoted webhook processor:
`{"idempotent": True}`, `{"out_of_order": True}`, or normal processing. -/
inductive WebhookOutcome where
  | idempotent
  | outOfOrder
  | processed
deriving DecidableEq, Repr

/-- Webhook processing translated from the code quoted in
`SECURITY_REVIEW.md`: the duplicate check
`payment.status == webhook.status and payment.webhook_count > 0`
(lines 63-64), the ordering check `webhook_time < payment.updated_at`
(lines 31-32 and 101-103), and `payment.webhook_count += 1` (line 290).
Modelled from the spec: the application step itself (set the status,
advance the watermark), which the review quotes only by its effects. -/
def processWebhook (p : PyPayment) (w : PyWebhook) : PyPayment × WebhookOutcome :=
  if p.status = w.status ∧ 0 < p.webhook_count then (p, .idempotent)
  else if w.timestamp < p.updated_at then (p, .outOfOrder)
  else
    ({ p with
        status := w.status
        updated_at := w.timestamp
        webhook_count := p.webhook_count + 1 },
      .processed)

/-- The in-memory API state of the quoted backend: a payments dictionary
and the idempotency cache mapping creation keys to payment ids
(`SECURITY_REVIEW.md` lines 58-60); the review notes the cache has no
expiration and is never evicted (lines 68-69). -/
structure ApiState where
  payments : List (String × PyPayment)
  idempotency_cache : List (String × String)
deriving DecidableEq, Repr

/-- Payment creation translated from `SECURITY_REVIEW.md` lines 58-60:
if the idempotency key is in the cache, return the existing payment and
do not create a duplicate; otherwise create a pending payment at time
`now` and cache `key → newId`.  No expiry is consulted or recorded. -/
def createPayment (st : ApiState) (key newId : String) (now : Nat) : ApiState × String :=
  match PaymentCore.lookupKey key st.idempotency_cache with
  | some pid => (st, pid)
  | none =>
    (⟨(newId, ⟨newId, .pending, now, 0⟩) :: st.payments,
      (key, newId) :: st.idempotency_cache⟩,
      newId)

/-- Webhook endpoint at the state level: look the payment up and write
back the processed record; the idempotency cache is untouched. -/
def receiveWebhook (st : ApiState) (w : PyWebhook) : ApiState × Option WebhookOutcome :=
  match PaymentCore.lookupKey w.payment_id st.payments with
  | none => (st, none)
  | some p =>
    (⟨(w.payment_id, (processWebhook p w).1) :: st.payments, st.idempotency_cache⟩,
      some (processWebhook p w).2)

/-- An API request touching the shared in-memory state: a creation call
or a webhook delivery. -/
inductive ApiOp where
  | create (key newId : String) (now : Nat)
  | webhook (w : PyWebhook)
deriving DecidableEq, Repr

/-- Run a sequence of API requests against the state. -/
def runOps (st : ApiState) : List ApiOp → ApiState
  | [] => st
  | .create key newId now :: rest => runOps (createPayment st key newId now).1 rest
  | .webhook w :: rest => runOps (receiveWebhook st w).1 rest

end ApiModel

namespace PaymentCore

theorem lookupKey_cons_self {α : Type} (k : String) (v : α) (l : List (String × α)) :
    lookupKey k ((k, v) :: l) = some v := by
  simp [lookupKey]

theorem lookupKey_cons_ne {α : Type} (k k' : String) (v : α) (l : List (String × α))
    (h : k' ≠ k) : lookupKey k ((k', v) :: l) = lookupKey k l := by
  simp [lookupKey, h]

theorem applyToPayment_stale (p : Payment) (e : NotificationEvent)
    (h : e.event_timestamp ≤ p.last_event_at) :
    (applyToPayment p e).1 = p := by
  unfold applyToPayment
  split
  · rfl
  · simp [h]

theorem applyToPayment_fresh (p : Payment) (e : NotificationEvent)
    (hinv : SeenInv p) (h : p.last_event_at < e.event_timestamp) :
    applyToPayment p e =
      ({ p with
          status := e.status
          last_event_at := e.event_timestamp
          applied_event_count := p.applied_event_count + 1
          seen_event_signatures := (e.status, e.event_timestamp) :: p.seen_event_signatures },
        ⟨true, false, false⟩) := by
  have hmem : (e.status, e.event_timestamp) ∉ p.seen_event_signatures := by
    intro hc
    exact absurd (hinv _ hc) (by omega)
  unfold applyToPayment
  simp [hmem, Nat.not_le.mpr h]

theorem applyToPayment_seenInv (p : Payment) (e : NotificationEvent)
    (hinv : SeenInv p) : SeenInv (applyToPayment p e).1 := by
  unfold applyToPayment
  split
  · exact hinv
  · split
    · exact hinv
    · intro sig hsig
      simp only [List.mem_cons] at hsig
      rcases hsig with rfl | hsig
      · simp
      · have := hinv sig hsig
        simp only
        omega

theorem applyToPayment_watermark_mono (p : Payment) (e : NotificationEvent) :
    p.last_event_at ≤ (applyToPayment p e).1.last_event_at := by
  unfold applyToPayment
  split
  · exact Nat.le_refl _
  · split
    · exact Nat.le_refl _
    · next h =>
      simp only
      omega

theorem applyToPayment_watermark_max (p : Payment) (e : NotificationEvent)
    (hinv : SeenInv p) :
    (applyToPayment p e).1.last_event_at = max p.last_event_at e.event_timestamp := by
  rcases le_or_lt e.event_timestamp p.last_event_at with h | h
  · rw [applyToPayment_stale p e h]
    omega
  · rw [applyToPayment_fresh p e hinv h]
    simp only
    omega

theorem applyList_stale (p : Payment) (evs : List NotificationEvent)
    (h : ∀ e ∈ evs, e.event_timestamp ≤ p.last_event_at) :
    applyList p evs = p := by
  induction evs with
  | nil => rfl
  | cons hd tl ih =>
    have hhd : (applyToPayment p hd).1 = p :=
      applyToPayment_stale p hd (h hd (List.mem_cons_self hd tl))
    simpa [applyList, hhd] using ih fun e he => h e (List.mem_cons_of_mem hd he)

theorem applyList_watermark_mono (p : Payment) (evs : List NotificationEvent) :
    p.last_event_at ≤ (applyList p evs).last_event_at := by
  induction evs generalizing p with
  | nil => exact Nat.le_refl _
  | cons hd tl ih =>
    calc p.last_event_at ≤ (applyToPayment p hd).1.last_event_at :=
          applyToPayment_watermark_mono p hd
      _ ≤ (applyList (applyToPayment p hd).1 tl).last_event_at := ih _
      _ = (applyList p (hd :: tl)).last_event_at := rfl

theorem exists_ts_max (evs : List NotificationEvent) (h : evs ≠ []) :
    ∃ m ∈ evs, ∀ e ∈ evs, e.event_timestamp ≤ m.event_timestamp := by
  induction evs with
  | nil => exact absurd rfl h
  | cons hd tl ih =>
    by_cases htl : tl = []
    · subst htl
      exact ⟨hd, List.mem_cons_self hd [], by simp⟩
    · obtain ⟨m, hm, hmax⟩ := ih htl
      rcases le_or_lt m.event_timestamp hd.event_timestamp with hle | hlt
      · refine ⟨hd, List.mem_cons_self hd tl, ?_⟩
        intro e he
        rcases List.mem_cons.mp he with rfl | he
        · exact Nat.le_refl _
        · exact Nat.le_trans (hmax e he) hle
      · refine ⟨m, List.mem_cons_of_mem hd hm, ?_⟩
        intro e he
        rcases List.mem_cons.mp he with rfl | he
        · exact Nat.le_of_lt hlt
        · exact hmax e he

theorem applyList_strict_max (evs : List NotificationEvent) (p : Payment)
    (e : NotificationEvent) (hinv : SeenInv p) (hmem : e ∈ evs)
    (hmax : ∀ e' ∈ evs, e' ≠ e → e'.event_timestamp < e.event_timestamp)
    (hfresh : p.last_event_at < e.event_timestamp) :
    (applyList p evs).status = e.status ∧
      (applyList p evs).last_event_at = e.event_timestamp := by
  induction evs generalizing p with
  | nil => cases hmem
  | cons hd tl ih =>
    by_cases hhd : hd = e
    · subst hhd
      have happ := applyToPayment_fresh p hd hinv hfresh
      have hstale : applyList (applyToPayment p hd).1 tl = (applyToPayment p hd).1 := by
        apply applyList_stale
        intro e' he'
        rw [happ]
        simp only
        by_cases he'e : e' = hd
        · subst he'e; exact Nat.le_refl _
        · exact Nat.le_of_lt (hmax e' (List.mem_cons_of_mem hd he') he'e)
      have hcons : applyList p (hd :: tl) = (applyToPayment p hd).1 := hstale
      rw [hcons, happ]
      exact ⟨rfl, rfl⟩
    · have hmem' : e ∈ tl := by
        rcases List.mem_cons.mp hmem with rfl | h
        · exact absurd rfl hhd
        · exact h
      have hlt : hd.event_timestamp < e.event_timestamp :=
        hmax hd (List.mem_cons_self hd tl) hhd
      have hinv' : SeenInv (applyToPayment p hd).1 := applyToPayment_seenInv p hd hinv
      have hw : (applyToPayment p hd).1.last_event_at = max p.last_event_at hd.event_timestamp :=
        applyToPayment_watermark_max p hd hinv
      have hfresh' : (applyToPayment p hd).1.last_event_at < e.event_timestamp := by
        rw [hw]; omega
      exact ih _ hinv' hmem' (fun e' he' => hmax e' (List.mem_cons_of_mem hd he')) hfresh'

theorem applyToPayment_dup (p : Payment) (e : NotificationEvent)
    (h : (e.status, e.event_timestamp) ∈ p.seen_event_signatures) :
    applyToPayment p e = (p, ⟨false, false, true⟩) := by
  unfold applyToPayment
  simp [h]

theorem applyToPayment_ooo (p : Payment) (e : NotificationEvent)
    (h1 : (e.status, e.event_timestamp) ∉ p.seen_event_signatures)
    (h2 : e.event_timestamp ≤ p.last_event_at) :
    applyToPayment p e = (p, ⟨false, true, false⟩) := by
  unfold applyToPayment
  simp [h1, h2]

theorem applyList_cons (p : Payment) (e : NotificationEvent) (evs : List NotificationEvent) :
    applyList p (e :: evs) = applyList (applyToPayment p e).1 evs := rfl

theorem applyList_fix (p : Payment) (e : NotificationEvent)
    (hfix : (applyToPayment p e).1 = p) :
    ∀ n, applyList p (List.replicate n e) = p := by
  intro n
  induction n with
  | zero => rfl
  | succ k ih =>
    rw [List.replicate_succ, applyList_cons, hfix]
    exact ih

theorem strict_max_of_distinct (evs : List NotificationEvent) (m : NotificationEvent)
    (hdist : DistinctTs evs) (hm : m ∈ evs)
    (hmax : ∀ e ∈ evs, e.event_timestamp ≤ m.event_timestamp) :
    ∀ e ∈ evs, e ≠ m → e.event_timestamp < m.event_timestamp := by
  intro e he hne
  have hne' : e.event_timestamp ≠ m.event_timestamp :=
    hdist.forall (fun _ _ h => Ne.symm h) he hm hne
  exact Nat.lt_of_le_of_ne (hmax e he) hne'

/-- Claim C5 (confirmed): watermark monotonicity invariant.  For every
payment, a single `Apply` step either leaves `last_event_at` unchanged or
strictly advances it, and over any sequence of deliveries, in any order,
`last_event_at` never decreases. -/
theorem watermark_monotonic :
    (∀ (p : Payment) (e : NotificationEvent),
        (applyToPayment p e).1.last_event_at = p.last_event_at ∨
          p.last_event_at < (applyToPayment p e).1.last_event_at) ∧
      (∀ (p : Payment) (evs : List NotificationEvent),
        p.last_event_at ≤ (applyList p evs).last_event_at) := by
  constructor
  · intro p e
    unfold applyToPayment
    split
    · exact Or.inl rfl
    · split
      · exact Or.inl rfl
      · next h =>
        right
        simp only
        omega
  · exact fun p evs => applyList_watermark_mono p evs

/-- Claim C6 (confirmed): no terminal-state special-casing.  A payment in
a terminal status (approved, declined or expired) whose watermark
invariant holds is overridden by any notification with a strictly newer
event timestamp and a different status: the notification applies and the
resulting status is the notification's. -/
theorem terminal_overridden (p : Payment) (e : NotificationEvent)
    (hinv : SeenInv p) (hterm : p.status.isTerminal = true)
    (hts : p.last_event_at < e.event_timestamp) (hne : e.status ≠ p.status) :
    (applyToPayment p e).2.applied = true ∧
      (applyToPayment p e).1.status = e.status ∧
      (applyToPayment p e).1.status ≠ p.status := by
  rw [applyToPayment_fresh p e hinv hts]
  exact ⟨rfl, rfl, hne⟩

/-- Witness for C6: a previously approved payment at watermark 10 is
overridden by a declined notification at timestamp 20. -/
theorem terminal_overridden_witness :
    SeenInv ⟨"p3", .approved, "50000", "COP", "k3", 0, 10, 1, [(.approved, 10)]⟩ ∧
      (applyToPayment ⟨"p3", .approved, "50000", "COP", "k3", 0, 10, 1, [(.approved, 10)]⟩
          ⟨"p3", .declined, 20, "sig"⟩).2.applied = true ∧
      (applyToPayment ⟨"p3", .approved, "50000", "COP", "k3", 0, 10, 1, [(.approved, 10)]⟩
          ⟨"p3", .declined, 20, "sig"⟩).1.status = .declined ∧
      (applyToPayment ⟨"p3", .approved, "50000", "COP", "k3", 0, 10, 1, [(.approved, 10)]⟩
          ⟨"p3", .declined, 20, "sig"⟩).1.status ≠ .approved :=
  ⟨by decide,
    terminal_overridden _ _ (by decide) (by decide) (by decide) (by decide)⟩

/-- Claim C7 (confirmed): `Apply` on an unknown payment id fails with
`NotFound` and returns the store unchanged: no placeholder Payment is
created and neither the payment store nor the idempotency index is
touched. -/
theorem apply_unknown_payment (st : Store) (e : NotificationEvent)
    (h : lookupKey e.payment_id st.payments = none) :
    Apply st e = (st, .error .NotFound) := by
  unfold Apply
  rw [h]

/-- Witness for C7: applying a notification to a store holding one other
payment leaves the store intact and reports `NotFound`. -/
theorem apply_unknown_payment_witness :
    lookupKey "ghost"
        (⟨[("p1", ⟨"p1", .pending, "50000", "COP", "k1", 0, 0, 0, []⟩)],
          [("k1", ⟨"p1", 24⟩)]⟩ : Store).payments = none ∧
      Apply ⟨[("p1", ⟨"p1", .pending, "50000", "COP", "k1", 0, 0, 0, []⟩)],
          [("k1", ⟨"p1", 24⟩)]⟩ ⟨"ghost", .approved, 5, "sig"⟩ =
        (⟨[("p1", ⟨"p1", .pending, "50000", "COP", "k1", 0, 0, 0, []⟩)],
          [("k1", ⟨"p1", 24⟩)]⟩, .error .NotFound) :=
  ⟨by decide, apply_unknown_payment _ _ (by decide)⟩

/-- Claim C8 (confirmed): creation validation.  A creation request whose
`payment_method` is outside the fixed allowed set, or that is missing the
customer or amount field, makes `Create` fail with `ValidationError`,
returning the store unchanged: no Payment record and no idempotency-index
entry is created. -/
theorem create_validation (st : Store) (req : CreateRequest) (key newId : String)
    (now ttl : Nat)
    (h : req.payment_method ∉ allowedMethods ∨ req.customer = none ∨ req.amount = none) :
    Create st req key newId now ttl = (st, .error .ValidationError) := by
  have hv : validRequest req = false := by
    unfold validRequest
    rcases h with h | h | h <;> simp [h]
  unfold Create
  rw [hv]
  simp

/-- Witness for C8: a request with payment method INVALID is rejected and
the store is untouched. -/
theorem create_validation_witness :
    ("INVALID" : String) ∉ allowedMethods ∧
      Create emptyStore
          ⟨some "50000", "COP", "INVALID", "banco_azul",
            some ⟨"test@example.com", "Juan Test", "123456789"⟩, "http://localhost:3000/return"⟩
          "k1" "p1" 0 24 =
        (emptyStore, .error .ValidationError) :=
  ⟨by decide, create_validation _ _ _ _ _ _ (Or.inl (by decide))⟩

/-- Counterexample to claim C2 as stated: resending an already-applied
notification gives a timestamp at the watermark, yet `Apply` reports
`duplicate`, not `outOfOrder`.  Concretely: a fresh payment receives
(approved, 5), which applies; the identical resend has
`event_timestamp ≤ last_event_at` but returns
`{applied := false, outOfOrder := false, duplicate := true}`. -/
theorem watermark_rule_cex :
    (⟨"p1", .approved, 5, "sig"⟩ : NotificationEvent).event_timestamp ≤
        (applyToPayment ⟨"p1", .pending, "50000", "COP", "k1", 0, 0, 0, []⟩
          ⟨"p1", .approved, 5, "sig"⟩).1.last_event_at ∧
      (applyToPayment
          (applyToPayment ⟨"p1", .pending, "50000", "COP", "k1", 0, 0, 0, []⟩
            ⟨"p1", .approved, 5, "sig"⟩).1
          ⟨"p1", .approved, 5, "sig"⟩).2.outOfOrder = false ∧
      (applyToPayment
          (applyToPayment ⟨"p1", .pending, "50000", "COP", "k1", 0, 0, 0, []⟩
            ⟨"p1", .approved, 5, "sig"⟩).1
          ⟨"p1", .approved, 5, "sig"⟩).2.duplicate = true := by
  decide

/-- Claim C2 (amended): watermark rule.  For a payment whose recorded
signatures respect the watermark, `Apply` mutates the payment iff the
notification's `event_timestamp` strictly exceeds `last_event_at`; in
that case it sets the status, advances the watermark, increments the
applied count, records the signature and reports `applied`.  When
`event_timestamp ≤ last_event_at` nothing is mutated and the result is
`applied := false` with `duplicate := true` if the signature was already
seen and `outOfOrder := true` otherwise. -/
theorem watermark_rule (p : Payment) (e : NotificationEvent) (hinv : SeenInv p) :
    ((applyToPayment p e).1 ≠ p ↔ p.last_event_at < e.event_timestamp) ∧
      (p.last_event_at < e.event_timestamp →
        applyToPayment p e =
          ({ p with
              status := e.status
              last_event_at := e.event_timestamp
              applied_event_count := p.applied_event_count + 1
              seen_event_signatures :=
                (e.status, e.event_timestamp) :: p.seen_event_signatures },
            ⟨true, false, false⟩)) ∧
      (e.event_timestamp ≤ p.last_event_at →
        (applyToPayment p e).1 = p ∧
          (applyToPayment p e).2.applied = false ∧
          ((e.status, e.event_timestamp) ∈ p.seen_event_signatures →
            (applyToPayment p e).2 = ⟨false, false, true⟩) ∧
          ((e.status, e.event_timestamp) ∉ p.seen_event_signatures →
            (applyToPayment p e).2 = ⟨false, true, false⟩)) := by
  refine ⟨⟨?_, ?_⟩, ?_, ?_⟩
  · intro hne
    by_contra hle
    exact hne (applyToPayment_stale p e (Nat.not_lt.mp hle))
  · intro hlt heq
    have hc : (applyToPayment p e).1.applied_event_count = p.applied_event_count + 1 := by
      rw [applyToPayment_fresh p e hinv hlt]
    rw [heq] at hc
    omega
  · exact applyToPayment_fresh p e hinv
  · intro hle
    by_cases hmem : (e.status, e.event_timestamp) ∈ p.seen_event_signatures
    · have hd := applyToPayment_dup p e hmem
      rw [hd]
      exact ⟨rfl, rfl, fun _ => rfl, fun hc => absurd hmem hc⟩
    · have ho := applyToPayment_ooo p e hmem hle
      rw [ho]
      exact ⟨rfl, rfl, fun hc => absurd hc hmem, fun _ => rfl⟩

/-- Witness for the amended C2: a fresh payment and a notification at
timestamp 7; the notification strictly exceeds the watermark, so the
application mutates the payment. -/
theorem watermark_rule_witness :
    SeenInv ⟨"p1", .pending, "50000", "COP", "k1", 0, 0, 0, []⟩ ∧
      (applyToPayment ⟨"p1", .pending, "50000", "COP", "k1", 0, 0, 0, []⟩
          ⟨"p1", .approved, 7, "sig"⟩).1 ≠
        ⟨"p1", .pending, "50000", "COP", "k1", 0, 0, 0, []⟩ :=
  ⟨by decide,
    (watermark_rule ⟨"p1", .pending, "50000", "COP", "k1", 0, 0, 0, []⟩
        ⟨"p1", .approved, 7, "sig"⟩ (by decide)).1.mpr (by decide)⟩

/-- Counterexample to claim C3 as stated: when the first delivery of the
repeated notification is already stale (timestamp at or below the
watermark), later identical deliveries are reported `outOfOrder`, not
`duplicate`, and `applied_event_count` rises by 0, not by exactly 1.
Concretely: a payment created at time 10 receives (approved, 5) twice. -/
theorem duplicate_suppression_cex :
    (applyToPayment
        (applyToPayment ⟨"p2", .pending, "50000", "COP", "k2", 10, 10, 0, []⟩
          ⟨"p2", .approved, 5, "sig"⟩).1
        ⟨"p2", .approved, 5, "sig"⟩).2.duplicate = false ∧
      (applyToPayment
          (applyToPayment ⟨"p2", .pending, "50000", "COP", "k2", 10, 10, 0, []⟩
            ⟨"p2", .approved, 5, "sig"⟩).1
          ⟨"p2", .approved, 5, "sig"⟩).2.outOfOrder = true ∧
      (applyList ⟨"p2", .pending, "50000", "COP", "k2", 10, 10, 0, []⟩
          (List.replicate 2 ⟨"p2", .approved, 5, "sig"⟩)).applied_event_count = 0 := by
  decide

/-- Claim C3 (amended): duplicate suppression.  For a payment whose
recorded signatures respect the watermark: if the first delivery of a
notification applies (its timestamp exceeds the watermark), then the
status changes to the notification's, `applied_event_count` rises by
exactly one, every identical redelivery returns
`{applied := false, duplicate := true}` with no mutation, and `N ≥ 1`
deliveries in total leave the state exactly as after the first; if
instead the first delivery is already stale, no number of identical
deliveries mutates the payment or its `applied_event_count` at all, and
each delivery returns `applied := false` — with `duplicate := true` when
the `(status, timestamp)` signature is already in the seen set and
`outOfOrder := true` otherwise (the state being fixed, every delivery of
the run gets that same result). -/
theorem duplicate_suppression (p : Payment) (e : NotificationEvent) (hinv : SeenInv p) :
    (p.last_event_at < e.event_timestamp →
      (applyToPayment p e).2.applied = true ∧
        (applyToPayment p e).1.status = e.status ∧
        (applyToPayment p e).1.applied_event_count = p.applied_event_count + 1 ∧
        applyToPayment (applyToPayment p e).1 e =
          ((applyToPayment p e).1, ⟨false, false, true⟩) ∧
        (∀ n, applyList p (List.replicate (n + 1) e) = (applyToPayment p e).1)) ∧
      (e.event_timestamp ≤ p.last_event_at →
        (∀ n, applyList p (List.replicate n e) = p) ∧
          (applyToPayment p e).2.applied = false ∧
          ((e.status, e.event_timestamp) ∈ p.seen_event_signatures →
            applyToPayment p e = (p, ⟨false, false, true⟩)) ∧
          ((e.status, e.event_timestamp) ∉ p.seen_event_signatures →
            applyToPayment p e = (p, ⟨false, true, false⟩))) := by
  constructor
  · intro hfresh
    have happ := applyToPayment_fresh p e hinv hfresh
    have hmem1 : (e.status, e.event_timestamp) ∈
        (applyToPayment p e).1.seen_event_signatures := by
      rw [happ]
      exact List.mem_cons_self _ _
    have hdup := applyToPayment_dup _ e hmem1
    refine ⟨?_, ?_, ?_, hdup, ?_⟩
    · rw [happ]
    · rw [happ]
    · rw [happ]
    · intro n
      rw [List.replicate_succ, applyList_cons]
      exact applyList_fix _ e (by rw [hdup]) n
  · intro hstale
    have hfix : ∀ n, applyList p (List.replicate n e) = p :=
      applyList_fix p e (applyToPayment_stale p e hstale)
    by_cases hmem : (e.status, e.event_timestamp) ∈ p.seen_event_signatures
    · have hd := applyToPayment_dup p e hmem
      exact ⟨hfix, by rw [hd], fun _ => hd, fun hc => absurd hmem hc⟩
    · have ho := applyToPayment_ooo p e hmem hstale
      exact ⟨hfix, by rw [ho], fun hc => absurd hc hmem, fun _ => ho⟩

/-- Witness for the amended C3: a fresh payment receives (approved, 5)
three times; the second delivery is the duplicate no-op and three
deliveries leave the state of the first. -/
theorem duplicate_suppression_witness :
    SeenInv ⟨"p1", .pending, "50000", "COP", "k1", 0, 0, 0, []⟩ ∧
      (⟨"p1", .pending, "50000", "COP", "k1", 0, 0, 0, []⟩ : Payment).last_event_at <
        (⟨"p1", .approved, 5, "sig"⟩ : NotificationEvent).event_timestamp ∧
      applyToPayment
          (applyToPayment ⟨"p1", .pending, "50000", "COP", "k1", 0, 0, 0, []⟩
            ⟨"p1", .approved, 5, "sig"⟩).1 ⟨"p1", .approved, 5, "sig"⟩ =
        ((applyToPayment ⟨"p1", .pending, "50000", "COP", "k1", 0, 0, 0, []⟩
            ⟨"p1", .approved, 5, "sig"⟩).1, ⟨false, false, true⟩) ∧
      applyList ⟨"p1", .pending, "50000", "COP", "k1", 0, 0, 0, []⟩
          (List.replicate 3 ⟨"p1", .approved, 5, "sig"⟩) =
        (applyToPayment ⟨"p1", .pending, "50000", "COP", "k1", 0, 0, 0, []⟩
          ⟨"p1", .approved, 5, "sig"⟩).1 :=
  ⟨by decide, by decide,
    ((duplicate_suppression ⟨"p1", .pending, "50000", "COP", "k1", 0, 0, 0, []⟩
        ⟨"p1", .approved, 5, "sig"⟩ (by decide)).1 (by decide)).2.2.2.1,
    ((duplicate_suppression ⟨"p1", .pending, "50000", "COP", "k1", 0, 0, 0, []⟩
        ⟨"p1", .approved, 5, "sig"⟩ (by decide)).1 (by decide)).2.2.2.2 2⟩

/-- Counterexample to claim C4 as stated: the idempotent-retry path only
holds while the index entry is unexpired.  With a TTL of 10, a key
created at time 0 and retried at time 20 allocates a second Payment with
a fresh id and `isNew = true`, so `Create(R, K)` called twice does not
always return the same `payment_id`. -/
theorem idempotent_creation_cex :
    (Create
        (Create emptyStore
          ⟨some "50000", "COP", "PSE", "banco_azul",
            some ⟨"test@example.com", "Juan Test", "123456789"⟩, "http://localhost:3000/return"⟩
          "k1" "p1" 0 10).1
        ⟨some "50000", "COP", "PSE", "banco_azul",
          some ⟨"test@example.com", "Juan Test", "123456789"⟩, "http://localhost:3000/return"⟩
        "k1" "p2" 20 10).2 =
      .ok (newPayment "p2"
        ⟨some "50000", "COP", "PSE", "banco_azul",
          some ⟨"test@example.com", "Juan Test", "123456789"⟩, "http://localhost:3000/return"⟩
        "k1" 20, true) ∧
    (newPayment "p2"
        ⟨some "50000", "COP", "PSE", "banco_azul",
          some ⟨"test@example.com", "Juan Test", "123456789"⟩, "http://localhost:3000/return"⟩
        "k1" 20).id ≠
      (newPayment "p1"
        ⟨some "50000", "COP", "PSE", "banco_azul",
          some ⟨"test@example.com", "Juan Test", "123456789"⟩, "http://localhost:3000/return"⟩
        "k1" 0).id := by
  decide

/-- Claim C4 (amended): idempotent creation while the key is live.  For a
valid request and a creation key not yet indexed, the first `Create`
allocates the pending Payment and any second `Create` with the same key
whose call time precedes the entry's expiry returns that very Payment
with `isNew = false` and leaves the store untouched (no second Payment is
allocated, no mutation). -/
theorem idempotent_creation (st : Store) (req : CreateRequest) (key id1 id2 : String)
    (now1 now2 ttl : Nat) (hvalid : validRequest req = true)
    (hfresh : lookupKey key st.index = none) (hexp : now2 < now1 + ttl) :
    (Create st req key id1 now1 ttl).2 = .ok (newPayment id1 req key now1, true) ∧
      Create (Create st req key id1 now1 ttl).1 req key id2 now2 ttl =
        ((Create st req key id1 now1 ttl).1, .ok (newPayment id1 req key now1, false)) := by
  have h1 : Create st req key id1 now1 ttl = createNewBranch st req key id1 now1 ttl := by
    unfold Create
    simp [hvalid, hfresh]
  constructor
  · rw [h1]
    rfl
  · rw [h1]
    unfold createNewBranch Create
    simp [hvalid, lookupKey_cons_self, hexp]

/-- Witness for the amended C4: key k1 created at time 0 with TTL 24 and
retried at time 5 returns the original payment p1 with `isNew = false`. -/
theorem idempotent_creation_witness :
    validRequest
        ⟨some "50000", "COP", "PSE", "banco_azul",
          some ⟨"test@example.com", "Juan Test", "123456789"⟩,
          "http://localhost:3000/return"⟩ = true ∧
      lookupKey "k1" emptyStore.index = none ∧
      Create
          (Create emptyStore
            ⟨some "50000", "COP", "PSE", "banco_azul",
              some ⟨"test@example.com", "Juan Test", "123456789"⟩,
              "http://localhost:3000/return"⟩
            "k1" "p1" 0 24).1
          ⟨some "50000", "COP", "PSE", "banco_azul",
            some ⟨"test@example.com", "Juan Test", "123456789"⟩,
            "http://localhost:3000/return"⟩
          "k1" "p2" 5 24 =
        ((Create emptyStore
            ⟨some "50000", "COP", "PSE", "banco_azul",
              some ⟨"test@example.com", "Juan Test", "123456789"⟩,
              "http://localhost:3000/return"⟩
            "k1" "p1" 0 24).1,
          .ok (newPayment "p1"
            ⟨some "50000", "COP", "PSE", "banco_azul",
              some ⟨"test@example.com", "Juan Test", "123456789"⟩,
              "http://localhost:3000/return"⟩
            "k1" 0, false)) :=
  ⟨by decide, by decide,
    (idempotent_creation emptyStore
        ⟨some "50000", "COP", "PSE", "banco_azul",
          some ⟨"test@example.com", "Juan Test", "123456789"⟩,
          "http://localhost:3000/return"⟩
        "k1" "p1" "p2" 0 5 24 (by decide) (by decide) (by decide)).2⟩

/-- Counterexample to claim C1 as stated: when every notification in the
set is stale relative to the payment's current watermark, the final
status is the payment's prior status, not the status of the notification
with the maximum event timestamp.  A payment created at time 10 receiving
the single-element set (approved, 5) stays pending. -/
theorem notification_commutativity_cex :
    DistinctTs [⟨"p2", .approved, 5, "sig"⟩] ∧
      (applyList ⟨"p2", .pending, "50000", "COP", "k2", 10, 10, 0, []⟩
          [⟨"p2", .approved, 5, "sig"⟩]).status = .pending ∧
      Status.pending ≠ Status.approved := by
  decide

/-- Claim C1 (amended): notification commutativity.  For a payment whose
recorded signatures respect the watermark and a fixed set of
notifications with pairwise-distinct event timestamps, any two delivery
permutations yield the same final status; moreover, whenever the
notification with the maximum event timestamp is strictly newer than the
payment's current watermark, that common final status is exactly the
status of that maximum-timestamp notification. -/
theorem notification_commutativity (p : Payment) (evs1 evs2 : List NotificationEvent)
    (hinv : SeenInv p) (hperm : evs1.Perm evs2) (hdist : DistinctTs evs1) :
    (applyList p evs1).status = (applyList p evs2).status ∧
      (∀ m ∈ evs1, (∀ e ∈ evs1, e.event_timestamp ≤ m.event_timestamp) →
        p.last_event_at < m.event_timestamp →
        (applyList p evs1).status = m.status ∧ (applyList p evs2).status = m.status) := by
  have hdist2 : DistinctTs evs2 := (hperm.pairwise_iff (fun hh => Ne.symm hh)).mp hdist
  have haux : ∀ m ∈ evs1, (∀ e ∈ evs1, e.event_timestamp ≤ m.event_timestamp) →
      p.last_event_at < m.event_timestamp →
      (applyList p evs1).status = m.status ∧ (applyList p evs2).status = m.status := by
    intro m hm hmax hfresh
    have hsm1 := strict_max_of_distinct evs1 m hdist hm hmax
    have hm2 : m ∈ evs2 := hperm.mem_iff.mp hm
    have hmax2 : ∀ e ∈ evs2, e.event_timestamp ≤ m.event_timestamp := fun e he =>
      hmax e (hperm.mem_iff.mpr he)
    have hsm2 := strict_max_of_distinct evs2 m hdist2 hm2 hmax2
    exact ⟨(applyList_strict_max evs1 p m hinv hm hsm1 hfresh).1,
      (applyList_strict_max evs2 p m hinv hm2 hsm2 hfresh).1⟩
  refine ⟨?_, haux⟩
  by_cases hall : ∀ e ∈ evs1, e.event_timestamp ≤ p.last_event_at
  · have hall2 : ∀ e ∈ evs2, e.event_timestamp ≤ p.last_event_at := fun e he =>
      hall e (hperm.mem_iff.mpr he)
    rw [applyList_stale p evs1 hall, applyList_stale p evs2 hall2]
  · push_neg at hall
    obtain ⟨e0, he0, hlt0⟩ := hall
    have hne : evs1 ≠ [] := by rintro rfl; cases he0
    obtain ⟨m, hm, hmax⟩ := exists_ts_max evs1 hne
    have hfresh : p.last_event_at < m.event_timestamp :=
      lt_of_lt_of_le hlt0 (hmax e0 he0)
    obtain ⟨h1, h2⟩ := haux m hm hmax hfresh
    rw [h1, h2]

/-- Witness for the amended C1: a fresh payment receiving
{(approved, 10), (declined, 5)} in either order ends approved, the status
of the maximum-timestamp notification. -/
theorem notification_commutativity_witness :
    SeenInv ⟨"p1", .pending, "50000", "COP", "k1", 0, 0, 0, []⟩ ∧
      List.Perm [⟨"p1", .approved, 10, "a"⟩, ⟨"p1", .declined, 5, "b"⟩]
        ([⟨"p1", .declined, 5, "b"⟩, ⟨"p1", .approved, 10, "a"⟩] :
          List NotificationEvent) ∧
      DistinctTs [⟨"p1", .approved, 10, "a"⟩, ⟨"p1", .declined, 5, "b"⟩] ∧
      (applyList ⟨"p1", .pending, "50000", "COP", "k1", 0, 0, 0, []⟩
          [⟨"p1", .approved, 10, "a"⟩, ⟨"p1", .declined, 5, "b"⟩]).status = .approved ∧
      (applyList ⟨"p1", .pending, "50000", "COP", "k1", 0, 0, 0, []⟩
          [⟨"p1", .declined, 5, "b"⟩, ⟨"p1", .approved, 10, "a"⟩]).status = .approved :=
  ⟨by decide, by decide, by decide,
    ((notification_commutativity ⟨"p1", .pending, "50000", "COP", "k1", 0, 0, 0, []⟩
          [⟨"p1", .approved, 10, "a"⟩, ⟨"p1", .declined, 5, "b"⟩]
          [⟨"p1", .declined, 5, "b"⟩, ⟨"p1", .approved, 10, "a"⟩]
          (by decide) (by decide) (by decide)).2
        ⟨"p1", .approved, 10, "a"⟩ (by decide) (by decide) (by decide)).1,
    ((notification_commutativity ⟨"p1", .pending, "50000", "COP", "k1", 0, 0, 0, []⟩
          [⟨"p1", .approved, 10, "a"⟩, ⟨"p1", .declined, 5, "b"⟩]
          [⟨"p1", .declined, 5, "b"⟩, ⟨"p1", .approved, 10, "a"⟩]
          (by decide) (by decide) (by decide)).2
        ⟨"p1", .approved, 10, "a"⟩ (by decide) (by decide) (by decide)).2⟩

end PaymentCore

namespace ApiModel

/-- Claim C9 (confirmed): the duplicate check of the backend quoted in
`SECURITY_REVIEW.md` keys on status equality only.  Once at least one
webhook has been counted, a webhook whose status equals the payment's
current status is answered `idempotent` with no mutation, even when its
timestamp strictly exceeds the payment's `updated_at` watermark — so the
watermark does not advance for that webhook. -/
theorem duplicate_check_status_only (p : PyPayment) (w : PyWebhook)
    (hstatus : p.status = w.status) (hcount : 0 < p.webhook_count)
    (hts : p.updated_at < w.timestamp) :
    processWebhook p w = (p, .idempotent) ∧
      (processWebhook p w).1.updated_at < w.timestamp := by
  have h : processWebhook p w = (p, .idempotent) := by
    unfold processWebhook
    simp [hstatus, hcount]
  refine ⟨h, ?_⟩
  rw [h]
  exact hts

/-- Witness for C9: an approved payment at watermark 10 with one counted
webhook receives an approved webhook at timestamp 20; the backend reports
`idempotent` and the watermark stays at 10. -/
theorem duplicate_check_status_only_witness :
    (⟨"p1", .approved, 10, 1⟩ : PyPayment).status =
        (⟨"p1", .approved, 20⟩ : PyWebhook).status ∧
      0 < (⟨"p1", .approved, 10, 1⟩ : PyPayment).webhook_count ∧
      processWebhook ⟨"p1", .approved, 10, 1⟩ ⟨"p1", .approved, 20⟩ =
        (⟨"p1", .approved, 10, 1⟩, .idempotent) ∧
      (processWebhook ⟨"p1", .approved, 10, 1⟩ ⟨"p1", .approved, 20⟩).1.updated_at < 20 :=
  ⟨by decide, by decide,
    (duplicate_check_status_only ⟨"p1", .approved, 10, 1⟩ ⟨"p1", .approved, 20⟩
        (by decide) (by decide) (by decide)).1,
    (duplicate_check_status_only ⟨"p1", .approved, 10, 1⟩ ⟨"p1", .approved, 20⟩
        (by decide) (by decide) (by decide)).2⟩

theorem createPayment_cache_preserved (st : ApiState) (key pid k' newId' : String)
    (now' : Nat)
    (h : PaymentCore.lookupKey key st.idempotency_cache = some pid) :
    PaymentCore.lookupKey key
      (createPayment st k' newId' now').1.idempotency_cache = some pid := by
  unfold createPayment
  cases hl : PaymentCore.lookupKey k' st.idempotency_cache with
  | some q =>
    simp only [hl]
    exact h
  | none =>
    have hk : k' ≠ key := by
      rintro rfl
      rw [hl] at h
      cases h
    simp only [hl]
    exact (PaymentCore.lookupKey_cons_ne key k' newId' st.idempotency_cache hk).trans h

theorem receiveWebhook_cache_preserved (st : ApiState) (key pid : String) (w : PyWebhook)
    (h : PaymentCore.lookupKey key st.idempotency_cache = some pid) :
    PaymentCore.lookupKey key
      (receiveWebhook st w).1.idempotency_cache = some pid := by
  unfold receiveWebhook
  cases hl : PaymentCore.lookupKey w.payment_id st.payments with
  | none =>
    simp only [hl]
    exact h
  | some p =>
    simp only [hl]
    exact h

theorem runOps_cache_preserved (ops : List ApiOp) : ∀ (st : ApiState) (key pid : String),
    PaymentCore.lookupKey key st.idempotency_cache = some pid →
    PaymentCore.lookupKey key (runOps st ops).idempotency_cache = some pid := by
  induction ops with
  | nil => exact fun st key pid h => h
  | cons op rest ih =>
    intro st key pid h
    cases op with
    | create k' newId' now' =>
      exact ih _ key pid (createPayment_cache_preserved st key pid k' newId' now' h)
    | webhook w =>
      exact ih _ key pid (receiveWebhook_cache_preserved st key pid w h)

/-- Claim C10 (confirmed): the idempotency mapping of the backend quoted
in `SECURITY_REVIEW.md` never expires.  Once the cache maps a creation
key to a payment id, every later create with that key returns that id
whatever time has elapsed (no expiry is consulted), and no sequence of
later creates or webhooks ever removes the entry or remaps the key to a
different payment id. -/
theorem idempotency_cache_persists (st : ApiState) (key pid : String)
    (h : PaymentCore.lookupKey key st.idempotency_cache = some pid) :
    (∀ newId now, createPayment st key newId now = (st, pid)) ∧
      (∀ ops, PaymentCore.lookupKey key
        (runOps st ops).idempotency_cache = some pid) := by
  constructor
  · intro newId now
    unfold createPayment
    rw [h]
  · exact fun ops => runOps_cache_preserved ops st key pid h

/-- Witness for C10: a cache holding k1 → p1 answers a retried create at
an arbitrary later time 999 with p1 and no state change, and the entry
survives an interleaved create under another key and a webhook. -/
theorem idempotency_cache_persists_witness :
    PaymentCore.lookupKey "k1"
        (⟨[("p1", ⟨"p1", .pending, 0, 0⟩)], [("k1", "p1")]⟩ : ApiState).idempotency_cache =
      some "p1" ∧
      createPayment ⟨[("p1", ⟨"p1", .pending, 0, 0⟩)], [("k1", "p1")]⟩ "k1" "p9" 999 =
        (⟨[("p1", ⟨"p1", .pending, 0, 0⟩)], [("k1", "p1")]⟩, "p1") ∧
      PaymentCore.lookupKey "k1"
          (runOps ⟨[("p1", ⟨"p1", .pending, 0, 0⟩)], [("k1", "p1")]⟩
            [.create "k2" "p2" 50, .webhook ⟨"p1", .approved, 60⟩]).idempotency_cache =
        some "p1" :=
  ⟨by decide,
    (idempotency_cache_persists ⟨[("p1", ⟨"p1", .pending, 0, 0⟩)], [("k1", "p1")]⟩
        "k1" "p1" (by decide)).1 "p9" 999,
    (idempotency_cache_persists ⟨[("p1", ⟨"p1", .pending, 0, 0⟩)], [("k1", "p1")]⟩
        "k1" "p1" (by decide)).2 [.create "k2" "p2" 50, .webhook ⟨"p1", .approved, 60⟩]⟩

end ApiModel
